import Mathlib

/-!
Verification of the distributed evaluation/aggregation protocol and fold
controller of `src/pkot5/klue/finetuning.py`.

The embedding models:
* the rank-keyed shared store (redis) as a function `Nat → Option _`
  (`None` models a missing key; `redis.get` returns `None` for an absent
  key and `pickle.loads(None)` then raises `TypeError`);
* `Metrics.on_evaluate`'s publish / barrier / collect sequence
  (lines 65-74): publishing writes a rank's pair of lists into its slot,
  and collecting iterates ranks `0 .. world_size-1` concatenating the
  stored pairs in rank order;
* the per-batch generation loop with its shape assertion (lines 48-63);
* `pickle.dumps` / `pickle.loads` at the object level (`PValue`), since
  the pickle module itself is Python standard-library code outside this
  repository;
* the fold controller's best-metric selection and rank-0-only result-file
  write in `train` (lines 98-145).

Decoded predictions are kept generic in an element type `α` (in the source
they are lists of token ids); confidence scores, Python floats produced by
`sequences_scores.tolist()`, are modelled as rationals.
-/

namespace PkoT5

/-- One worker's pair of ordered result lists: decoded predictions for its
shard, and its (possibly empty) per-example confidence scores.  In the
source this is the pair `[all_logits, all_scores]` pickled at line 65. -/
abbrev ShardResult (α : Type) := List α × List ℚ

/-- The rank-keyed shared store.  `none` at a key models a missing key in
redis (that rank never published). -/
abbrev Store (α : Type) := Nat → Option (ShardResult α)

/-- A store with no published slots. -/
def emptyStore {α : Type} : Store α := fun _ => none

/-- Embedding of `self.r.set(f"{dist.get_rank()}", pickle.dumps([all_logits, all_scores]))`
(line 65): store the worker's pair at its own rank's key, overwriting any
prior value there. -/
def publish {α : Type} (store : Store α) (rank : Nat) (res : ShardResult α) : Store α :=
  fun k => if k = rank then some res else store k

/-- Iterated publishing: every rank `r < n` publishes its shard result
`shards r` into its own slot.  The fold order is irrelevant because the
keys are distinct; this models the state of the store once every worker
has published, before the barrier releases. -/
def publishAll {α : Type} (store : Store α) (shards : Nat → ShardResult α) : Nat → Store α
  | 0 => store
  | n + 1 => publish (publishAll store shards n) n (shards n)

/-- Embedding of the collect loop (lines 67-71):

```
for i in range(dist.get_world_size()):
    logits, scores = pickle.loads(self.r.get(f"{i}"))
    all_logits += logits
    all_scores += scores
```

A missing key makes `self.r.get` return `None` and `pickle.loads(None)`
raise `TypeError`; the embedding surfaces that uncaught fault as
`Except.error`.  Ranks are read in ascending order, and the fault of the
smallest missing rank fires first, exactly as in the Python loop. -/
def collectE {α : Type} (store : Store α) : Nat → Except String (ShardResult α)
  | 0 => Except.ok ([], [])
  | n + 1 => do
      let acc ← collectE store n
      match store n with
      | none => Except.error ("TypeError: rank " ++ toString n ++ " never published")
      | some res => Except.ok (acc.1 ++ res.1, acc.2 ++ res.2)

lemma publishAll_lookup {α : Type} (store : Store α) (shards : Nat → ShardResult α) :
    ∀ n r, r < n → publishAll store shards n r = some (shards r) := by
  intro n
  induction n with
  | zero => intro r hr; exact absurd hr (Nat.not_lt_zero r)
  | succ n ih =>
    intro r hr
    by_cases h : r = n
    · subst h
      simp [publishAll, publish]
    · have hrn : r < n := Nat.lt_of_le_of_ne (Nat.le_of_lt_succ hr) h
      simp [publishAll, publish, h, ih r hrn]

lemma collectE_of_published {α : Type} (store : Store α) (shards : Nat → ShardResult α) :
    ∀ n, (∀ r, r < n → store r = some (shards r)) →
      collectE store n =
        Except.ok (((List.range n).map (fun r => (shards r).1)).flatten,
                   ((List.range n).map (fun r => (shards r).2)).flatten) := by
  intro n
  induction n with
  | zero => intro _; rfl
  | succ n ih =>
    intro h
    have hn : store n = some (shards n) := h n (Nat.lt_succ_self n)
    have hrec := ih (fun r hr => h r (Nat.lt_succ_of_lt hr))
    simp [collectE, hrec, hn, List.range_succ, Bind.bind, Except.bind]

lemma collectE_ok_publishedBelow {α : Type} (store : Store α) :
    ∀ n p, collectE store n = Except.ok p → ∀ r, r < n → ∃ v, store r = some v := by
  intro n
  induction n with
  | zero => intro p _ r hr; exact absurd hr (Nat.not_lt_zero r)
  | succ n ih =>
    intro p h r hr
    cases hc : collectE store n with
    | error e => simp [collectE, hc, Bind.bind, Except.bind] at h
    | ok acc =>
      cases hsn : store n with
      | none => simp [collectE, hc, hsn, Bind.bind, Except.bind] at h
      | some v =>
        rcases Nat.lt_succ_iff_lt_or_eq.mp hr with h1 | h1
        · exact ih acc hc r h1
        · exact h1 ▸ ⟨v, hsn⟩

/-- C1: if every rank `r < N` has published its shard result under key `r`
before the barrier, then the collect loop run by any worker after the
barrier returns the concatenation of all ranks' prediction lists (and score
lists) in ascending rank order `0 .. N-1`, and the total prediction length
is the sum of the shard sizes.  (The collect loop of `Metrics.on_evaluate`
does not depend on the rank of the worker running it, so one equation
covers every worker.) -/
theorem collect_after_publish_concat {α : Type} (N : Nat) (shards : Nat → ShardResult α)
    (store : Store α) (h : ∀ r, r < N → store r = some (shards r)) :
    collectE store N =
      Except.ok (((List.range N).map (fun r => (shards r).1)).flatten,
                 ((List.range N).map (fun r => (shards r).2)).flatten)
    ∧ (((List.range N).map (fun r => (shards r).1)).flatten).length =
        ((List.range N).map (fun r => (shards r).1.length)).sum := by
  refine ⟨collectE_of_published store shards N h, ?_⟩
  rw [List.length_flatten, List.map_map]
  rfl

/-- Witness for C1 at `N = 2` with shards published through `publishAll`. -/
theorem collect_after_publish_concat_witness :
    collectE (publishAll (emptyStore : Store Nat) (fun r => ([10 * r, 10 * r + 1], [(r : ℚ)])) 2) 2 =
      Except.ok (((List.range 2).map (fun r => (([10 * r, 10 * r + 1], [(r : ℚ)]) : ShardResult Nat).1)).flatten,
                 ((List.range 2).map (fun r => (([10 * r, 10 * r + 1], [(r : ℚ)]) : ShardResult Nat).2)).flatten)
    ∧ (((List.range 2).map (fun r => (([10 * r, 10 * r + 1], [(r : ℚ)]) : ShardResult Nat).1)).flatten).length =
        ((List.range 2).map (fun r => (([10 * r, 10 * r + 1], [(r : ℚ)]) : ShardResult Nat).1.length)).sum :=
  collect_after_publish_concat 2 (fun r => ([10 * r, 10 * r + 1], [(r : ℚ)])) _
    (fun r hr => publishAll_lookup _ _ 2 r hr)

/-- C4: with two workers, after rank 0 publishes `(["a","b"], [])` and
rank 1 publishes `(["c"], [])`, the collect step (run on any worker, after
the barrier) yields exactly `(["a","b","c"], [])`: the merged prediction
list in rank order paired with an empty score list. -/
theorem collect_two_workers_scenario :
    collectE (publish (publish (emptyStore : Store String) 0 (["a", "b"], [])) 1 (["c"], [])) 2 =
      Except.ok (["a", "b", "c"], []) := rfl

/-- C5: if some rank `r < N` never published (its store key is missing),
the collect loop does not return a result: `redis.get` yields `None` there
and `pickle.loads(None)` raises an uncaught `TypeError` that terminates the
run.  The loop body contains no retry, recovery or fallback: the whole
collect computation is a fault. -/
theorem collect_missing_key_faults {α : Type} (store : Store α) (N r : Nat)
    (hr : r < N) (hmiss : store r = none) :
    (collectE store N).isOk = false := by
  cases hc : collectE store N with
  | error e => rfl
  | ok p =>
    obtain ⟨v, hv⟩ := collectE_ok_publishedBelow store N p hc r hr
    rw [hmiss] at hv
    cases hv

/-- Witness for C5: rank 1 published but rank 0 did not; collect faults. -/
theorem collect_missing_key_faults_witness :
    (0 : Nat) < 2 ∧ (publish (emptyStore : Store Nat) 1 ([5], [])) 0 = none
    ∧ (collectE (publish (emptyStore : Store Nat) 1 ([5], [])) 2).isOk = false :=
  ⟨by decide, rfl, collect_missing_key_faults _ 2 0 (by decide) rfl⟩

/-- Embedding of lines 67-74 of `Metrics.on_evaluate`: collect all ranks'
slots, then pass the merged predictions together with the scores argument
to `compute_metrics`, where an empty merged score list is replaced by
`None`:

```
if len(all_scores) == 0:
    all_scores = None
self.metrics.append(self.processor.compute_metrics(all_logits, ..., output_scores=all_scores))
``` -/
def computeMetricsArgs {α : Type} (store : Store α) (worldSize : Nat) :
    Except String (List α × Option (List ℚ)) := do
  let res ← collectE store worldSize
  Except.ok (res.1, if res.2.length = 0 then none else some res.2)

/-- C10: when the concatenated score list of all ranks is empty, the metric
computation receives `None` as its scores argument; otherwise it receives
the non-empty concatenated score list itself. -/
theorem scores_arg_none_iff_empty {α : Type} (store : Store α) (N : Nat)
    (l : List α) (s : List ℚ) (h : collectE store N = Except.ok (l, s)) :
    (s = [] → computeMetricsArgs store N = Except.ok (l, none))
    ∧ (s ≠ [] → computeMetricsArgs store N = Except.ok (l, some s)) := by
  constructor
  · intro hs
    subst hs
    simp [computeMetricsArgs, h, Bind.bind, Except.bind]
  · intro hs
    simp only [computeMetricsArgs, h, Bind.bind, Except.bind]
    rw [if_neg (by simpa using hs)]

/-- Witness for C10, one case per branch: a world whose only worker
published no scores yields a `none` argument, and one that published a
score yields `some` of it. -/
theorem scores_arg_none_iff_empty_witness :
    computeMetricsArgs (publish (emptyStore : Store Nat) 0 ([3], [])) 1 =
        Except.ok ([3], none)
    ∧ computeMetricsArgs (publish (emptyStore : Store Nat) 0 ([3], [(1 : ℚ)/2])) 1 =
        Except.ok ([3], some [(1 : ℚ)/2]) :=
  ⟨(scores_arg_none_iff_empty (publish (emptyStore : Store Nat) 0 ([3], [])) 1 [3] [] rfl).1 rfl,
   (scores_arg_none_iff_empty (publish (emptyStore : Store Nat) 0 ([3], [(1 : ℚ)/2])) 1 [3]
      [(1 : ℚ)/2] rfl).2 (by simp)⟩

/-- One batch of the evaluation dataloader, together with the generation
output the model produced for it (lines 48-58): `inputRows` is
`data['input_ids'].shape[0]`, `seqs` is `output.sequences` as a list of
token-id lists (`logits.detach().cpu().tolist()`), and `scores` is
`output.sequences_scores.tolist()`. -/
structure GenBatch where
  inputRows : Nat
  seqs : List (List Int)
  scores : List ℚ

/-- Embedding of the body of the evaluation loop (lines 48-63), with the
accumulator `acc = (all_logits, all_scores)`:

```
for data in eval_dataloader:
    output = model.generate(...)
    logits = output.sequences
    if self.processor.task == 'mrc' or self.processor.task == 'vinca':
        all_scores += output.sequences_scores.tolist()
    assert logits.shape[0] == data['input_ids'].shape[0]
    all_logits += logits.detach().cpu().tolist()
```

A failed assertion is the uncaught `AssertionError` fault; note that the
score append happens before the assertion, as in the source. -/
def evalLoopAux (task : String) (acc : List (List Int) × List ℚ) :
    List GenBatch → Except String (List (List Int) × List ℚ)
  | [] => Except.ok acc
  | b :: rest =>
      let acc2 := if task = "mrc" ∨ task = "vinca" then acc.2 ++ b.scores else acc.2
      if b.seqs.length = b.inputRows then
        evalLoopAux task (acc.1 ++ b.seqs, acc2) rest
      else
        Except.error "AssertionError"

/-- The evaluation loop started from the empty accumulators
(`all_scores, all_logits = [], []`, line 40). -/
def evalLoop (task : String) (batches : List GenBatch) :
    Except String (List (List Int) × List ℚ) :=
  evalLoopAux task ([], []) batches

/-- The score list the loop accumulates: the concatenation of every batch's
score list for the tasks `mrc` and `vinca`, and the empty list for every
other task. -/
def runScores (task : String) (batches : List GenBatch) : List ℚ :=
  if task = "mrc" ∨ task = "vinca" then (batches.map GenBatch.scores).flatten else []

lemma evalLoopAux_ok (task : String) :
    ∀ batches : List GenBatch, (∀ b ∈ batches, b.seqs.length = b.inputRows) →
      ∀ L S, evalLoopAux task (L, S) batches =
        Except.ok (L ++ (batches.map GenBatch.seqs).flatten, S ++ runScores task batches) := by
  intro batches
  induction batches with
  | nil => intro _ L S; simp [evalLoopAux, runScores]
  | cons b rest ih =>
    intro h L S
    have hb : b.seqs.length = b.inputRows := h b (List.mem_cons_self b rest)
    have hrest : ∀ x ∈ rest, x.seqs.length = x.inputRows :=
      fun x hx => h x (List.mem_cons_of_mem b hx)
    by_cases hc : task = "mrc" ∨ task = "vinca"
    · simp [evalLoopAux, hb, hc, ih hrest, runScores, List.append_assoc]
    · simp [evalLoopAux, hb, hc, ih hrest, runScores, List.append_assoc]

/-- C6: when generation yields exactly one output sequence per input
sequence in every batch, the shape assertion holds on every iteration (the
`AssertionError` branch is unreachable and the loop returns normally), the
prediction list grows by exactly the batch size each iteration, and the
published prediction list's length equals the shard size, i.e. the sum of
the batch row counts. -/
theorem eval_assert_holds (task : String) (batches : List GenBatch)
    (h : ∀ b ∈ batches, b.seqs.length = b.inputRows) :
    evalLoop task batches =
      Except.ok ((batches.map GenBatch.seqs).flatten, runScores task batches)
    ∧ ((batches.map GenBatch.seqs).flatten).length = (batches.map GenBatch.inputRows).sum := by
  constructor
  · simpa [evalLoop] using evalLoopAux_ok task batches h [] []
  · rw [List.length_flatten, List.map_map]
    exact congrArg List.sum (List.map_congr_left (fun b hb => h b hb))

/-- Concrete batches for the evaluation-loop witnesses: a two-row batch and
a one-row batch, the second carrying one confidence score. -/
def demoBatches : List GenBatch :=
  [⟨2, [[1, 2], [3]], []⟩, ⟨1, [[4]], [1]⟩]

/-- Witness for C6 on `demoBatches` with task `ynat`. -/
theorem eval_assert_holds_witness :
    evalLoop "ynat" demoBatches =
      Except.ok ((demoBatches.map GenBatch.seqs).flatten, runScores "ynat" demoBatches)
    ∧ ((demoBatches.map GenBatch.seqs).flatten).length =
        (demoBatches.map GenBatch.inputRows).sum :=
  eval_assert_holds "ynat" demoBatches (by decide)

/-- C7: the shard evaluator populates the score list (one append of
`sequences_scores` per batch) exactly when the processor's task is `mrc` or
`vinca`; for every other task the worker's published score list is empty. -/
theorem scores_for_mrc_vinca_only (task : String) (batches : List GenBatch)
    (h : ∀ b ∈ batches, b.seqs.length = b.inputRows) :
    (task = "mrc" ∨ task = "vinca" →
      evalLoop task batches =
        Except.ok ((batches.map GenBatch.seqs).flatten, (batches.map GenBatch.scores).flatten))
    ∧ (¬(task = "mrc" ∨ task = "vinca") →
      evalLoop task batches =
        Except.ok ((batches.map GenBatch.seqs).flatten, [])) := by
  constructor
  · intro hc
    simpa [evalLoop, runScores, hc] using evalLoopAux_ok task batches h [] []
  · intro hc
    simpa [evalLoop, runScores, hc] using evalLoopAux_ok task batches h [] []

/-- Witness for C7: on `demoBatches`, the task `mrc` publishes the
concatenated batch scores while the task `ynat` publishes no scores. -/
theorem scores_for_mrc_vinca_only_witness :
    evalLoop "mrc" demoBatches =
      Except.ok ((demoBatches.map GenBatch.seqs).flatten, (demoBatches.map GenBatch.scores).flatten)
    ∧ evalLoop "ynat" demoBatches =
      Except.ok ((demoBatches.map GenBatch.seqs).flatten, []) :=
  ⟨(scores_for_mrc_vinca_only "mrc" demoBatches (by decide)).1 (Or.inl rfl),
   (scores_for_mrc_vinca_only "ynat" demoBatches (by decide)).2 (by decide)⟩

/-- A Fold Metric Record: the dict returned by
`processor.compute_metrics`, a mapping from metric name to scalar value.
It is modelled as the list of tracked keys plus a total valuation; the
records compared in `train` all come from the same processor, so they share
the same key set and the lookup `metric[k]` never raises `KeyError`. -/
structure MetricRecord where
  keys : List String
  val : String → ℚ

/-- Embedding of the replacement test at line 138:
`any(metric[k] >= best_metric[k] for k in best_metric.keys())`. -/
def shouldReplace (metric best : MetricRecord) : Bool :=
  best.keys.any (fun k => decide (best.val k ≤ metric.val k))

/-- One step of the best-metric loop at lines 134-139: a `None` best is
replaced unconditionally, otherwise the new record replaces the best
exactly when `shouldReplace` succeeds. -/
def bestStep (best : Option MetricRecord) (m : MetricRecord) : Option MetricRecord :=
  match best with
  | none => some m
  | some b => if shouldReplace m b then some m else some b

/-- The whole best-metric loop of one fold: fold `bestStep` over the
fold's evaluation records, starting from `best_metric = None`. -/
def selectBest (ms : List MetricRecord) : Option MetricRecord :=
  ms.foldl bestStep none

/-- The fold controller's retained records: `best_metric` is re-initialized
to `None` inside the fold loop (line 134), so each fold's best is selected
from that fold's own evaluation records only. -/
def perFoldBest (folds : List (List MetricRecord)) : List (Option MetricRecord) :=
  folds.map selectBest

/-- C2: with a current best record `A` and a new record `B`, the controller
replaces `A` by `B` exactly when at least one tracked key `k` of `A`
satisfies `B[k] >= A[k]`; it does not require all keys to improve. -/
theorem best_replace_iff_any_key (A B : MetricRecord) :
    (shouldReplace B A = true ↔ ∃ k ∈ A.keys, A.val k ≤ B.val k)
    ∧ (shouldReplace B A = true → bestStep (some A) B = some B)
    ∧ (shouldReplace B A = false → bestStep (some A) B = some A) := by
  refine ⟨?_, ?_, ?_⟩
  · simp [shouldReplace, List.any_eq_true]
  · intro h
    simp [bestStep, h]
  · intro h
    simp [bestStep, h]

/-- A one-key record `{em: q}`. -/
def emRec (q : ℚ) : MetricRecord :=
  ⟨["em"], fun _ => q⟩

/-- Witness for C2: `{em: 3/4}` replaces `{em: 1/2}` (its single key does
not decrease), while `{em: 1/2}` does not replace `{em: 3/4}`. -/
theorem best_replace_iff_any_key_witness :
    bestStep (some (emRec (1/2))) (emRec (3/4)) = some (emRec (3/4))
    ∧ bestStep (some (emRec (3/4))) (emRec (1/2)) = some (emRec (3/4)) :=
  ⟨(best_replace_iff_any_key (emRec (1/2)) (emRec (3/4))).2.1 (by norm_num [shouldReplace, emRec]),
   (best_replace_iff_any_key (emRec (3/4)) (emRec (1/2))).2.2 (by norm_num [shouldReplace, emRec])⟩

/-- A ten-fold run in which fold 3's single evaluation round yields
`{em: 0.80}`, fold 4's yields `{em: 0.79}`, and every other fold's yields
`{em: 0}`. -/
def tenFoldRun : List (List MetricRecord) :=
  [[emRec 0], [emRec 0], [emRec 0], [emRec (80/100)], [emRec (79/100)],
   [emRec 0], [emRec 0], [emRec 0], [emRec 0], [emRec 0]]

/-- C3 fails as stated: in the ten-fold run where fold 3 yields
`{em: 0.80}` and fold 4 yields `{em: 0.79}`, the record the controller
retains at fold 4 is `{em: 0.79}` — not fold 3's `{em: 0.80}` — because
`best_metric` is re-initialized to `None` at the start of each fold and the
later record is never compared (by `>=` or otherwise) against fold 3's. -/
theorem fold_best_no_cross_fold_retention :
    tenFoldRun.length = 10
    ∧ ((perFoldBest tenFoldRun).get? 4).map (fun ob => ob.map (fun m => m.val "em")) =
        some (some (79/100))
    ∧ ¬ ((79 : ℚ)/100 = 80/100) := by
  refine ⟨rfl, rfl, by norm_num⟩

/-- C3 amended: each fold's best record is selected independently from that
fold's own evaluation rounds. In the ten-fold run, fold 3 retains
`{em: 0.80}` and fold 4 retains `{em: 0.79}`; the `>=` comparison only acts
within one fold, where a later `{em: 0.79}` round indeed fails to replace
an earlier `{em: 0.80}` one. -/
theorem fold_best_per_fold :
    ((perFoldBest tenFoldRun).get? 3).map (fun ob => ob.map (fun m => m.val "em")) =
        some (some (80/100))
    ∧ ((perFoldBest tenFoldRun).get? 4).map (fun ob => ob.map (fun m => m.val "em")) =
        some (some (79/100))
    ∧ (selectBest [emRec (80/100), emRec (79/100)]).map (fun m => m.val "em") =
        some (80/100) := by
  refine ⟨rfl, rfl, ?_⟩
  have h : shouldReplace (emRec (79/100)) (emRec (80/100)) = false := by
    norm_num [shouldReplace, emRec]
  have hsel : selectBest [emRec (80/100), emRec (79/100)] = some (emRec (80/100)) := by
    simp [selectBest, bestStep, h]
  rw [hsel]
  rfl

/-- A filesystem write effect: the path written and its lines. -/
structure FileWrite where
  path : String
  lines : List String

/-- The result text file of lines 142-144: `result_<task>.txt` inside the
fold's output directory, one `key=value` line per metric of the fold's
best record. -/
def resultFileOf (outputDir : String) (i : Nat) (task : String) (b : MetricRecord) : FileWrite :=
  ⟨outputDir ++ "/" ++ toString i ++ "/result_" ++ task ++ ".txt",
   b.keys.map (fun k => k ++ "=" ++ toString (b.val k))⟩

/-- Embedding of the tail of the fold loop (lines 134-144): select the
fold's best record, then write the result file when and only when
`local_rank == 0`.  A rank-0 worker with no evaluation rounds would hit the
uncaught `AttributeError` of iterating `None.items()`; any other worker
performs no write at all. -/
def foldFinalize (localRank : Int) (outputDir task : String) (i : Nat)
    (ms : List MetricRecord) : Except String (List FileWrite) :=
  let best := selectBest ms
  if localRank = 0 then
    match best with
    | none => Except.error "AttributeError: NoneType has no items"
    | some b => Except.ok [resultFileOf outputDir i task b]
  else
    Except.ok []

/-- C8: for every fold whose evaluation produced a best record, the result
text file is written by the rank-0 worker (exactly one file, the
`key=value` lines of the best record) and only by the rank-0 worker: a
worker whose local rank is not 0 performs no result-file write. -/
theorem result_file_rank0_only (localRank : Int) (outputDir task : String) (i : Nat)
    (ms : List MetricRecord) (b : MetricRecord) (hb : selectBest ms = some b) :
    (localRank = 0 →
      foldFinalize localRank outputDir task i ms = Except.ok [resultFileOf outputDir i task b])
    ∧ (localRank ≠ 0 → foldFinalize localRank outputDir task i ms = Except.ok []) := by
  constructor
  · intro h0
    simp [foldFinalize, h0, hb]
  · intro h0
    simp [foldFinalize, h0]

/-- Witness for C8: with one evaluation record, rank 0 writes the single
result file and rank 1 writes nothing. -/
theorem result_file_rank0_only_witness :
    foldFinalize 0 "./models/klue_t5" "ynat" 0 [emRec 1] =
        Except.ok [resultFileOf "./models/klue_t5" 0 "ynat" (emRec 1)]
    ∧ foldFinalize 1 "./models/klue_t5" "ynat" 0 [emRec 1] = Except.ok [] :=
  ⟨(result_file_rank0_only 0 "./models/klue_t5" "ynat" 0 [emRec 1] (emRec 1) rfl).1 rfl,
   (result_file_rank0_only 1 "./models/klue_t5" "ynat" 0 [emRec 1] (emRec 1) rfl).2 (by decide)⟩

/-- Modelled from the spec: the value domain of the `pickle` module (Python
standard-library code, not part of this repository's sources), restricted
to what line 65 serializes: integers, scalars, and nested lists. -/
inductive PValue where
  | pint : Int → PValue
  | prat : ℚ → PValue
  | plist : List PValue → PValue

/-- Modelled from the spec: `pickle.dumps([all_logits, all_scores])` as the
object-level serialization of a worker's pair of lists — a two-element list
holding the list of token-id lists and the list of scores. -/
def pdumps (x : List (List Int) × List ℚ) : PValue :=
  PValue.plist [PValue.plist (x.1.map (fun l => PValue.plist (l.map PValue.pint))),
                PValue.plist (x.2.map PValue.prat)]

/-- Decode an integer value. -/
def decInt : PValue → Option Int
  | PValue.pint n => some n
  | _ => none

/-- Decode a scalar score value. -/
def decRat : PValue → Option ℚ
  | PValue.prat q => some q
  | _ => none

/-- Decode a list element by element; any ill-formed element fails the
whole decode. -/
def decListWith {β : Type} (dec : PValue → Option β) : List PValue → Option (List β)
  | [] => some []
  | v :: vs => do
      let b ← dec v
      let bs ← decListWith dec vs
      some (b :: bs)

/-- Decode one token-id list. -/
def decIntList : PValue → Option (List Int)
  | PValue.plist vs => decListWith decInt vs
  | _ => none

/-- Modelled from the spec: `pickle.loads` on a serialized shard result,
recovering the pair `(all_logits, all_scores)` from the two-element list;
anything ill-formed fails. -/
def ploads : PValue → Option (List (List Int) × List ℚ)
  | PValue.plist [PValue.plist va, PValue.plist vb] => do
      let logits ← decListWith decIntList va
      let scores ← decListWith decRat vb
      some (logits, scores)
  | _ => none

lemma decListWith_map {β : Type} (dec : PValue → Option β) (enc : β → PValue)
    (h : ∀ b, dec (enc b) = some b) :
    ∀ l : List β, decListWith dec (l.map enc) = some l := by
  intro l
  induction l with
  | nil => rfl
  | cons b bs ih => simp [decListWith, h, ih, Bind.bind, Option.bind]

/-- C9: deserializing the serialized form of any shard result `x` yields
`x` back, and the slot a rank reads from the store after publishing into
its own key holds exactly the value it published — so what a rank reads
back equals what it wrote. -/
theorem pickle_roundtrip_readback (x : List (List Int) × List ℚ)
    (store : Store (List Int)) (r : Nat) :
    ploads (pdumps x) = some x ∧ publish store r x r = some x := by
  have hint : ∀ l : List Int, decListWith decInt (l.map PValue.pint) = some l :=
    decListWith_map decInt PValue.pint (fun _ => rfl)
  have hIntList : ∀ l : List Int, decIntList (PValue.plist (l.map PValue.pint)) = some l :=
    fun l => by simp [decIntList, hint l]
  have hlog : decListWith decIntList (x.1.map (fun l => PValue.plist (l.map PValue.pint))) = some x.1 :=
    decListWith_map decIntList (fun l => PValue.plist (l.map PValue.pint)) hIntList x.1
  have hsc : decListWith decRat (x.2.map PValue.prat) = some x.2 :=
    decListWith_map decRat PValue.prat (fun _ => rfl) x.2
  constructor
  · simp [pdumps, ploads, hlog, hsc, Bind.bind, Option.bind]
  · simp [publish]

end PkoT5
